import Mathlib

/-!
Shallow embedding of `assaultcube_server_reader.py`, a client-side decoder for
the AssaultCube server query protocol, together with proofs about the decoding
functions.

Conventions of the embedding:
* A byte buffer (`bytes` in Python) is a `List Nat`, each element being one
  byte value in `0..255`.
* `struct.unpack` failures (`struct.error`), `UnicodeDecodeError` and every
  other Python exception are modelled by `Option`: a function that would raise
  returns `none`.
* `struct.unpack("b", ...)` reads one signed 8-bit value: this is `toSigned`.
  `struct.unpack("H", ...)` reads one native-endian (little-endian on the
  machines this runs on) unsigned 16-bit value.
* `unpack_helper(fmt, data)` is specialised per use: `unpack_skip n` for the
  calls whose unpacked values are discarded, `take2` / `take3` for the calls
  whose raw byte values are used.
* Python dictionaries returned by `read_player_data` are association lists
  `List (String × Val)` in the key order of the source literal.
-/

/-- Value stored in a decoded player dictionary: Python ints or strings. -/
inductive Val
  | i (n : Int)
  | s (t : String)
deriving DecidableEq

/-- Reading one byte with `struct.unpack("b", ...)`: the signed 8-bit value of
a raw byte. -/
def toSigned (b : Nat) : Int :=
  if b < 128 then (b : Int) else (b : Int) - 256

/-- Embeds `unpack_helper(fmt, data)` for the calls that only skip `fmt`-sized
prefixes ("bb", "bbb"): `struct.unpack` raises when fewer than `n` bytes
remain, otherwise the remainder is `data[n:]`. -/
def unpack_skip (n : Nat) (data : List Nat) : Option (List Nat) :=
  if data.length < n then none else some (data.drop n)

/-- Embeds `unpack_helper("bb", data)` where both raw bytes are used. -/
def take2 : List Nat → Option (Nat × Nat × List Nat)
  | a :: b :: rest => some (a, b, rest)
  | _ => none

/-- Embeds `unpack_helper("BBB", data)` (three raw unsigned bytes). -/
def take3 : List Nat → Option (Nat × Nat × Nat × List Nat)
  | a :: b :: c :: rest => some (a, b, c, rest)
  | _ => none

/-- Embeds `getint` (source lines 27-36): read one signed byte; if it equals
-128 read the next two bytes as an unsigned 16-bit little-endian value,
otherwise the signed byte itself is the value. -/
def getint : List Nat → Option (Int × List Nat)
  | [] => none
  | b :: rest =>
    if toSigned b = -128 then
      match rest with
      | lo :: hi :: rest2 => some ((lo : Int) + 256 * (hi : Int), rest2)
      | _ => none
    else
      some (toSigned b, rest)

/-- Embeds `getstring` (source lines 47-61, with `getchar` inlined): consume
bytes until a zero byte (consumed, not included) or the end of the buffer;
each consumed byte is decoded individually as UTF-8, so any byte `≥ 0x80`
raises `UnicodeDecodeError` (modelled as `none`). -/
def getstring : List Nat → Option (String × List Nat)
  | [] => some ("", [])
  | b :: rest =>
    if b = 0 then some ("", rest)
    else if b < 128 then
      match getstring rest with
      | some (s, r) => some (String.mk (Char.ofNat b :: s.data), r)
      | none => none
    else none

/-- The text obtained by decoding each byte of `n` as one character; used to
state what `getstring` returns on ASCII input. -/
def decode_name (n : List Nat) : String :=
  String.mk (n.map Char.ofNat)

/-- Embeds the ip computation of `read_player_data` (source line 146):
`".".join(str(byte) for byte in ip_tuple) + ".0"`. -/
def ip_string (a b c : Nat) : String :=
  toString a ++ "." ++ toString b ++ "." ++ toString c ++ ".0"

/-- Embeds `read_player_data` (source lines 109-173). A buffer shorter than
20 bytes yields the empty dictionary `{}` (the IncompleteRecord marker).
Otherwise the 2+3+2 header bytes are skipped and the fields are decoded in
source order. Note that the source decodes `shotdamage` but the returned
dictionary literal omits it. -/
def read_player_data (player_data : List Nat) : Option (List (String × Val)) :=
  if player_data.length < 20 then some []
  else
    match unpack_skip 2 player_data with
    | none => none
    | some d1 =>
    match unpack_skip 3 d1 with
    | none => none
    | some d2 =>
    match unpack_skip 2 d2 with
    | none => none
    | some d3 =>
    match getint d3 with
    | none => none
    | some (client_number, d4) =>
    match getint d4 with
    | none => none
    | some (ping, d5) =>
    match getstring d5 with
    | none => none
    | some (name, d6) =>
    match getstring d6 with
    | none => none
    | some (team, d7) =>
    match getint d7 with
    | none => none
    | some (frags, d8) =>
    match getint d8 with
    | none => none
    | some (flags, d9) =>
    match getint d9 with
    | none => none
    | some (deaths, d10) =>
    match getint d10 with
    | none => none
    | some (teamkills, d11) =>
    match getint d11 with
    | none => none
    | some (accuracy, d12) =>
    match getint d12 with
    | none => none
    | some (health, d13) =>
    match getint d13 with
    | none => none
    | some (armour, d14) =>
    match getint d14 with
    | none => none
    | some (gun, d15) =>
    match getint d15 with
    | none => none
    | some (role, d16) =>
    match getint d16 with
    | none => none
    | some (state, d17) =>
    match take3 d17 with
    | none => none
    | some (ip1, ip2, ip3, d18) =>
    match getint d18 with
    | none => none
    | some (damage, d19) =>
    match getint d19 with
    | none => none
    | some (_shotdamage, _d20) =>
    some [("client_number", Val.i client_number),
          ("ping", Val.i ping),
          ("name", Val.s name),
          ("team", Val.s team),
          ("frags", Val.i frags),
          ("flags", Val.i flags),
          ("deaths", Val.i deaths),
          ("teamkills", Val.i teamkills),
          ("accuracy", Val.i accuracy),
          ("health", Val.i health),
          ("armour", Val.i armour),
          ("gun", Val.i gun),
          ("role", Val.i role),
          ("state", Val.i state),
          ("ip", Val.s (ip_string ip1 ip2 ip3)),
          ("damage", Val.i damage)]

/-- The semantic server-mode categories of the mastermode resolution
(source lines 82-92): the raw pair is kept in the `unknown` case. -/
inductive Mastermode
  | mOpen
  | mPrivate
  | mMatch
  | mUnknown (p q : Int)
deriving DecidableEq

/-- Embeds the mastermode resolution of `get_server_info_and_namelist`
(source lines 82-92): read a signed pair; on the -128 sentinel consume one
further pair and classify as match (in the source the string `"match"` then
falls through both membership tests unchanged); otherwise `(0,1)` and `(1,1)`
are open, `(64,1)` and `(65,1)` are private, and any other pair is kept raw. -/
def resolve_mastermode (data : List Nat) : Option (Mastermode × List Nat) :=
  match data with
  | a :: b :: rest =>
    if toSigned a = -128 then
      match rest with
      | _ :: _ :: rest2 => some (Mastermode.mMatch, rest2)
      | _ => none
    else
      let p := toSigned a
      let q := toSigned b
      if (p = 0 ∨ p = 1) ∧ q = 1 then some (Mastermode.mOpen, rest)
      else if (p = 64 ∨ p = 65) ∧ q = 1 then some (Mastermode.mPrivate, rest)
      else some (Mastermode.mUnknown p q, rest)
  | _ => none

/-- Outcome of running the player-name loop with a given amount of fuel:
either the loop exited with the collected names, or a `getstring` decode
raised, or the fuel ran out (`spin`); a state on which every fuel amount
yields `spin` is a state from which the Python loop never terminates. -/
inductive LoopOut
  | done (names : List String)
  | decodeErr
  | spin
deriving DecidableEq

/-- Embeds the player-name loop of `get_server_info_and_namelist`
(source lines 94-97): `while data != b"\x00": player, data = getstring(data);
playerlist.append(player)`, with explicit fuel. -/
def namelist_loop : Nat → List Nat → List String → LoopOut
  | 0, _, _ => LoopOut.spin
  | fuel + 1, data, playerlist =>
    if data = [0] then LoopOut.done playerlist
    else
      match getstring data with
      | none => LoopOut.decodeErr
      | some (player, data2) => namelist_loop fuel data2 (playerlist ++ [player])

/-- A well-formed name-list buffer: each name's bytes followed by its zero
terminator, then the final single zero byte. -/
def encode_names : List (List Nat) → List Nat
  | [] => [0]
  | n :: rest => n ++ 0 :: encode_names rest

/-- Fuel-indexed embedding of the client-number loop of `get_playerstats`
(source lines 199-201): `while data_client_number: getint; append`. Each
iteration consumes at least one byte, so `data.length + 1` fuel always
suffices; running out of fuel yields `none` like a decode failure. -/
def parse_client_numbers_go : Nat → List Nat → Option (List Int)
  | 0, _ => none
  | _ + 1, [] => some []
  | fuel + 1, b :: rest =>
    match getint (b :: rest) with
    | none => none
    | some (v, rest2) =>
      match parse_client_numbers_go fuel rest2 with
      | none => none
      | some vs => some (v :: vs)

/-- The client-number loop run with sufficient fuel. -/
def parse_client_numbers (data : List Nat) : Option (List Int) :=
  parse_client_numbers_go (data.length + 1) data

/-- Embeds the header-datagram processing of `get_playerstats`
(source lines 189-201): skip the 2-byte echo and 3-byte version, read the
2-byte response-subtype pair (its value only drives a debug print), then
decode client numbers until the buffer is exhausted. -/
def parse_header (data : List Nat) : Option (List Int) :=
  match unpack_skip 2 data with
  | none => none
  | some d1 =>
  match unpack_skip 3 d1 with
  | none => none
  | some d2 =>
  match take2 d2 with
  | none => none
  | some (_e1, _e2, d3) => parse_client_numbers d3

/-- Embeds the record-acceptance test of `get_playerstats` (source line 208):
`"name" in dict_player_data and dict_player_data["name"] != ""`. In Python an
int compares as not-equal to `""`, hence the `Val.i` case. -/
def keepRecord (rec : List (String × Val)) : Bool :=
  match rec.lookup "name" with
  | some (Val.s t) => t != ""
  | some (Val.i _) => true
  | none => false

/-- Embeds the record-collection loop of `get_playerstats`
(source lines 202-209): one received datagram per expected client number, in
order; a missing datagram is a transport timeout and a `read_player_data`
exception propagates, both `none`; records passing `keepRecord` are appended
in arrival order. -/
def collect_records : List Int → List (List Nat) → Option (List (List (String × Val)))
  | [], _ => some []
  | _ :: _, [] => none
  | _ :: ids, d :: ds =>
    match read_player_data d with
    | none => none
    | some rec =>
    match collect_records ids ds with
    | none => none
    | some rest => some (if keepRecord rec then rec :: rest else rest)

/-- Embeds `get_playerstats` (source lines 175-212) as a function of the raw
datagrams the transport delivers: the header datagram and the sequence of
record datagrams. The return value of the source is exactly `players_stats`. -/
def get_playerstats_model (header : List Nat) (records : List (List Nat)) :
    Option (List (List (String × Val))) :=
  match parse_header header with
  | none => none
  | some ids => collect_records ids records

/-- Decoding a list of record datagrams individually; used to state which
roster `collect_records` produces. -/
def decode_all : List (List Nat) → Option (List (List (String × Val)))
  | [] => some []
  | d :: ds =>
    match read_player_data d with
    | none => none
    | some rec =>
    match decode_all ds with
    | none => none
    | some rest => some (rec :: rest)

/-- A well-formed synthetic player-stats record datagram: 2-byte echo,
3-byte version, 2-byte subtype (-11), client 4, ping 50, name "Alice",
team "CLA", frags 3, flags 1, deaths 2, teamkills 0, accuracy 75, health 100,
armour 25, gun 5, role 0, state 0, ip octets 10.0.0, damage 120, and
shotdamage 300 encoded through the -128 sentinel escape. -/
def aliceBytes : List Nat :=
  [0, 1] ++ [1, 2, 3] ++ [0, 245] ++
  [4] ++ [50] ++
  [65, 108, 105, 99, 101, 0] ++
  [67, 76, 65, 0] ++
  [3] ++ [1] ++ [2] ++ [0] ++ [75] ++ [100] ++ [25] ++ [5] ++ [0] ++ [0] ++
  [10, 0, 0] ++ [120] ++ [128, 44, 1]

/-- The dictionary `read_player_data` produces on `aliceBytes`. -/
def aliceExpected : List (String × Val) :=
  [("client_number", Val.i 4),
   ("ping", Val.i 50),
   ("name", Val.s "Alice"),
   ("team", Val.s "CLA"),
   ("frags", Val.i 3),
   ("flags", Val.i 1),
   ("deaths", Val.i 2),
   ("teamkills", Val.i 0),
   ("accuracy", Val.i 75),
   ("health", Val.i 100),
   ("armour", Val.i 25),
   ("gun", Val.i 5),
   ("role", Val.i 0),
   ("state", Val.i 0),
   ("ip", Val.s "10.0.0.0"),
   ("damage", Val.i 120)]

/-- A 20-byte record datagram that passes the minimum-length check but whose
final byte is the -128 sentinel, so the armour field's escaped read runs past
the buffer and `struct.unpack` raises. -/
def badRecordBytes : List Nat :=
  [0, 1] ++ [1, 2, 3] ++ [0, 245] ++
  [1] ++ [1] ++ [65, 0] ++ [66, 0] ++ [1] ++ [1] ++ [1] ++ [1] ++ [1] ++ [1] ++ [128]

/-! ### Helper lemmas -/

/-- Helper: the name-list loop makes no progress on the empty buffer, so it
spins for every amount of fuel. -/
theorem namelist_loop_empty_aux (fuel : Nat) :
    ∀ acc : List String, namelist_loop fuel [] acc = LoopOut.spin := by
  induction fuel with
  | zero => intro acc; rfl
  | succ fuel ih =>
    intro acc
    simpa [namelist_loop, getstring] using ih (acc ++ [""])

/-- Helper: `getstring` on a nonzero-ASCII prefix followed by a zero byte
decodes exactly that prefix and consumes the terminator. -/
theorem getstring_reads_to_zero (n : List Nat) (rest : List Nat)
    (h : ∀ b ∈ n, 0 < b ∧ b < 128) :
    getstring (n ++ 0 :: rest) = some (decode_name n, rest) := by
  induction n with
  | nil => rfl
  | cons b m ih =>
    have hb := h b (List.mem_cons_self b m)
    have ih' := ih (fun x hx => h x (List.mem_cons_of_mem b hx))
    simp only [List.cons_append, getstring, List.append_eq]
    rw [if_neg (by omega), if_pos hb.2, ih']
    rfl

/-- Helper: `getstring` on a nonzero-ASCII buffer with no zero byte decodes
the whole buffer. -/
theorem getstring_no_zero (data : List Nat)
    (h : ∀ b ∈ data, 0 < b ∧ b < 128) :
    getstring data = some (decode_name data, []) := by
  induction data with
  | nil => rfl
  | cons b m ih =>
    have hb := h b (List.mem_cons_self b m)
    have ih' := ih (fun x hx => h x (List.mem_cons_of_mem b hx))
    simp only [getstring]
    rw [if_neg (by omega), if_pos hb.2, ih']
    rfl

/-- Helper: one unfolding step of the name-list loop. -/
theorem namelist_loop_succ (fuel : Nat) (data : List Nat) (acc : List String) :
    namelist_loop (fuel + 1) data acc =
      if data = [0] then LoopOut.done acc
      else
        match getstring data with
        | none => LoopOut.decodeErr
        | some (player, data2) => namelist_loop fuel data2 (acc ++ [player]) := rfl

/-- Helper: an encoded name list always ends with its terminator byte. -/
theorem encode_names_ne_nil (names : List (List Nat)) : encode_names names ≠ [] := by
  cases names <;> simp [encode_names]

/-- Helper: on a well-formed name-list buffer the loop consumes one name per
iteration and finishes with all names appended in order. -/
theorem namelist_loop_encode (names : List (List Nat))
    (h : ∀ n ∈ names, ∀ b ∈ n, 0 < b ∧ b < 128) :
    ∀ acc : List String,
      namelist_loop (names.length + 1) (encode_names names) acc =
        LoopOut.done (acc ++ names.map decode_name) := by
  induction names with
  | nil => intro acc; simp [encode_names, namelist_loop]
  | cons n ns ih =>
    intro acc
    have hne := encode_names_ne_nil ns
    have hdata : n ++ 0 :: encode_names ns ≠ [0] := by
      intro heq
      have hlen := congrArg List.length heq
      simp [List.length_append] at hlen
      exact hne (List.length_eq_zero.mp (by omega))
    have hstr := getstring_reads_to_zero n (encode_names ns)
      (h n (List.mem_cons_self n ns))
    simp only [encode_names, List.length_cons]
    rw [namelist_loop_succ, if_neg hdata, hstr]
    have ih' := ih (fun m hm => h m (List.mem_cons_of_mem n hm)) (acc ++ [decode_name n])
    simpa [List.append_assoc] using ih'

/-- Helper: when every record datagram decodes (no exception), the collection
loop returns exactly the decoded records that pass `keepRecord`, in arrival
order, independently of the values of the expected client numbers. -/
theorem collect_records_decode_all (records : List (List Nat)) :
    ∀ (ids : List Int) (recs : List (List (String × Val))),
      records.length = ids.length →
      decode_all records = some recs →
      collect_records ids records = some (recs.filter keepRecord) := by
  induction records with
  | nil =>
    intro ids recs hlen hdec
    cases ids with
    | nil =>
      simp only [decode_all, Option.some.injEq] at hdec
      subst hdec
      rfl
    | cons i ids => simp at hlen
  | cons d ds ih =>
    intro ids recs hlen hdec
    cases ids with
    | nil => simp at hlen
    | cons i ids =>
      simp only [decode_all] at hdec
      cases hr : read_player_data d with
      | none => rw [hr] at hdec; exact absurd hdec (by simp)
      | some rec =>
        rw [hr] at hdec
        cases ha : decode_all ds with
        | none => rw [ha] at hdec; exact absurd hdec (by simp)
        | some rest =>
          rw [ha] at hdec
          simp only [Option.some.injEq] at hdec
          subst hdec
          have ihr := ih ids rest (by simpa using hlen) ha
          simp only [collect_records, hr, ihr, List.filter_cons]

/-! ### The claims -/

/-- C1: for every byte sequence handed to `getint`, if the first byte read as
a signed 8-bit value is not -128 then the decoded value is that byte and
exactly one byte is consumed; if it equals -128 that byte is discarded and
the value is the next two bytes as an unsigned 16-bit integer, three bytes
being consumed in total. -/
theorem getint_sentinel_spec (b lo hi : Nat) (rest : List Nat) :
    (toSigned b ≠ -128 → getint (b :: rest) = some (toSigned b, rest)) ∧
    (toSigned b = -128 →
      getint (b :: lo :: hi :: rest) = some ((lo : Int) + 256 * (hi : Int), rest)) := by
  constructor
  · intro h
    simp [getint, h]
  · intro h
    simp [getint, h]

/-- Witness for C1 at concrete inputs: byte 5 decodes to 5 consuming one
byte, and the escaped sequence 128, 44, 1 decodes to 300 consuming three. -/
theorem getint_sentinel_spec_witness :
    getint [5, 9] = some (5, [9]) ∧ getint [128, 44, 1] = some (300, []) := by
  constructor
  · exact (getint_sentinel_spec 5 0 0 [9]).1 (by decide)
  · have h := (getint_sentinel_spec 128 44 1 []).2 (by decide)
    norm_num at h
    exact h

/-- C2 counterexample: on the empty buffer the player-name loop never
finishes for any amount of fuel — `data != b"\x00"` holds for the empty
buffer and `getstring` returns it unchanged, so the Python loop diverges
instead of stopping, refuting the claim that the loop also terminates when
the remaining buffer is empty. -/
theorem namelist_loop_empty_never_done :
    ¬ ∃ fuel : Nat, namelist_loop fuel [] [] ≠ LoopOut.spin := by
  rintro ⟨fuel, h⟩
  exact h (namelist_loop_empty_aux fuel [])

/-- C2 amended: the loop stops exactly when the remaining buffer is the
single zero byte (not when it is empty): on a buffer of zero or more
null-terminated nonzero-ASCII names followed by the final zero byte, the
loop terminates and appends every decoded name in order. -/
theorem namelist_loop_wellformed (names : List (List Nat))
    (h : ∀ n ∈ names, ∀ b ∈ n, 0 < b ∧ b < 128) :
    namelist_loop (names.length + 1) (encode_names names) [] =
      LoopOut.done (names.map decode_name) := by
  simpa using namelist_loop_encode names h []

/-- Witness for the amended C2: the single name "Bob" with its terminator
and the final zero byte decodes to the one-element name list. -/
theorem namelist_loop_wellformed_witness :
    namelist_loop 2 (encode_names [[66, 111, 98]]) [] =
      LoopOut.done ([[66, 111, 98]].map decode_name) ∧
    [[66, 111, 98]].map decode_name = ["Bob"] :=
  ⟨namelist_loop_wellformed [[66, 111, 98]] (by decide), by decide⟩

/-- C3: on the synthetic well-formed record datagram `aliceBytes` the decoder
returns exactly the literal fields, with ip string "10.0.0.0"; however the
returned dictionary has no "shotdamage" entry at all — the source decodes
shotdamage (here 300, through the sentinel escape) and then omits it from the
returned dictionary literal, contradicting both its own docstring ("Return a
dictionnary with all read informations") and the claim. -/
theorem read_player_data_alice :
    read_player_data aliceBytes = some aliceExpected ∧
    aliceExpected.lookup "ip" = some (Val.s "10.0.0.0") ∧
    aliceExpected.lookup "shotdamage" = none := by
  refine ⟨by decide, by decide, by decide⟩

/-- C4 counterexample: a 20-byte record datagram whose decoding raises
mid-field makes the whole collection fail (`none`, the propagated exception)
even though another record was perfectly decodable, refuting the claim that
the reassembler never fails the whole roster because of one unparseable
record. -/
theorem collect_records_one_bad_fails_all :
    read_player_data badRecordBytes = none ∧
    read_player_data aliceBytes = some aliceExpected ∧
    collect_records [2, 5] [aliceBytes, badRecordBytes] = none := by
  refine ⟨by decide, by decide, by decide⟩

/-- C4 amended: the reassembler tolerates and drops a record datagram shorter
than 20 bytes (it decodes to the IncompleteRecord marker, which has no name
and is filtered out) without affecting the rest of the roster; only a record
of length at least 20 bytes whose decoding raises mid-field fails the whole
roster. -/
theorem collect_records_drops_short (i : Int) (ids : List Int) (d : List Nat)
    (ds : List (List Nat)) (h : d.length < 20) :
    collect_records (i :: ids) (d :: ds) = collect_records ids ds := by
  have hd : read_player_data d = some [] := by simp [read_player_data, h]
  have hk : keepRecord [] = false := rfl
  cases hc : collect_records ids ds <;>
    simp [collect_records, hd, hk, hc]

/-- Witness for the amended C4: a 3-byte datagram is dropped and the
collection over the remaining ids is unchanged. -/
theorem collect_records_drops_short_witness :
    collect_records [(7 : Int)] [[1, 2, 3]] = collect_records [] [] :=
  collect_records_drops_short 7 [] [1, 2, 3] [] (by decide)

/-- C5 counterexample: two completed exchanges whose header datagrams list
different expected client identifiers (2 versus 5) but deliver the same
record datagram produce identical results, so the value returned by
`get_playerstats` does not contain the original expected-identifier list,
refuting the claim that the RosterResult is returned together with it. -/
theorem get_playerstats_no_id_list :
    parse_header [0, 1, 1, 2, 3, 0, 246, 2] = some [2] ∧
    parse_header [0, 1, 1, 2, 3, 0, 246, 5] = some [5] ∧
    get_playerstats_model [0, 1, 1, 2, 3, 0, 246, 2] [aliceBytes] =
      get_playerstats_model [0, 1, 1, 2, 3, 0, 246, 5] [aliceBytes] := by
  refine ⟨by decide, by decide, by decide⟩

/-- C5 amended: when the exchange completes (one decodable datagram per
expected identifier), the Finalize step drops exactly the records that are
IncompleteRecord or have an empty name and returns the remaining records in
arrival order; the expected-identifier list only determines how many record
datagrams are consumed and is not part of the returned value. -/
theorem get_playerstats_finalize (header : List Nat) (ids : List Int)
    (records : List (List Nat)) (recs : List (List (String × Val)))
    (hh : parse_header header = some ids)
    (hlen : records.length = ids.length)
    (hdec : decode_all records = some recs) :
    get_playerstats_model header records = some (recs.filter keepRecord) := by
  unfold get_playerstats_model
  rw [hh]
  exact collect_records_decode_all records ids recs hlen hdec

/-- Witness for the amended C5: a header expecting clients 2 and 5 followed
by the Alice record and one incomplete record yields the roster containing
only Alice's record. -/
theorem get_playerstats_finalize_witness :
    get_playerstats_model [0, 1, 1, 2, 3, 0, 246, 2, 5] [aliceBytes, [1, 2, 3]] =
      some (List.filter keepRecord [aliceExpected, []]) :=
  get_playerstats_finalize [0, 1, 1, 2, 3, 0, 246, 2, 5] [2, 5]
    [aliceBytes, [1, 2, 3]] [aliceExpected, []] (by decide) (by decide) (by decide)

/-- C6: mode resolution is total and deterministic — a pair whose first
(signed) element is the -128 sentinel consumes exactly two extra bytes and
yields match; the pairs (0,1) and (1,1) yield open; (64,1) and (65,1) yield
private; every other byte pair yields unknown preserving the raw signed pair,
without failing. -/
theorem resolve_mastermode_total (a b x y : Nat) (rest : List Nat) :
    resolve_mastermode (128 :: b :: x :: y :: rest) = some (Mastermode.mMatch, rest) ∧
    resolve_mastermode (0 :: 1 :: rest) = some (Mastermode.mOpen, rest) ∧
    resolve_mastermode (1 :: 1 :: rest) = some (Mastermode.mOpen, rest) ∧
    resolve_mastermode (64 :: 1 :: rest) = some (Mastermode.mPrivate, rest) ∧
    resolve_mastermode (65 :: 1 :: rest) = some (Mastermode.mPrivate, rest) ∧
    (a < 256 → b < 256 → a ≠ 128 → ¬((a = 0 ∨ a = 1 ∨ a = 64 ∨ a = 65) ∧ b = 1) →
      resolve_mastermode (a :: b :: rest) =
        some (Mastermode.mUnknown (toSigned a) (toSigned b), rest)) ∧
    (a ≠ 128 → (resolve_mastermode (a :: b :: rest)).isSome = true) := by
  refine ⟨?_, ?_, ?_, ?_, ?_, ?_, ?_⟩
  · norm_num [resolve_mastermode, toSigned]
  · norm_num [resolve_mastermode, toSigned]
  · norm_num [resolve_mastermode, toSigned]
  · norm_num [resolve_mastermode, toSigned]
  · norm_num [resolve_mastermode, toSigned]
  · intro ha hb h128 hcond
    have ht : toSigned a ≠ -128 := by unfold toSigned; split <;> omega
    have h0 : toSigned a = 0 ↔ a = 0 := by unfold toSigned; split <;> omega
    have h1 : toSigned a = 1 ↔ a = 1 := by unfold toSigned; split <;> omega
    have h64 : toSigned a = 64 ↔ a = 64 := by unfold toSigned; split <;> omega
    have h65 : toSigned a = 65 ↔ a = 65 := by unfold toSigned; split <;> omega
    have hb1 : toSigned b = 1 ↔ b = 1 := by unfold toSigned; split <;> omega
    have c1 : ¬((toSigned a = 0 ∨ toSigned a = 1) ∧ toSigned b = 1) := by
      rw [h0, h1, hb1]; omega
    have c2 : ¬((toSigned a = 64 ∨ toSigned a = 65) ∧ toSigned b = 1) := by
      rw [h64, h65, hb1]; omega
    simp only [resolve_mastermode]
    rw [if_neg ht, if_neg c1, if_neg c2]
  · intro h128
    have ht : toSigned a ≠ -128 := by unfold toSigned; split <;> omega
    simp only [resolve_mastermode]
    rw [if_neg ht]
    split_ifs <;> simp

/-- Witness for C6 at concrete inputs: the sentinel pair with two extra bytes
yields match leaving the remainder intact, and the out-of-table pair
(200, 3) yields unknown with the signed raw pair preserved. -/
theorem resolve_mastermode_total_witness :
    resolve_mastermode (128 :: 3 :: 7 :: 9 :: [5]) = some (Mastermode.mMatch, [5]) ∧
    resolve_mastermode (200 :: 3 :: [5]) =
      some (Mastermode.mUnknown (toSigned 200) (toSigned 3), [5]) :=
  ⟨(resolve_mastermode_total 0 3 7 9 [5]).1,
   (resolve_mastermode_total 200 3 7 9 [5]).2.2.2.2.2.1
     (by decide) (by decide) (by decide) (by decide)⟩

/-- C7 counterexample: the buffer 0x80, 0x00 contains a zero byte, yet string
decoding does not terminate at it with a result — the 0x80 byte before the
zero fails the per-byte UTF-8 decode, so `getstring` raises instead of
returning the prefix and the untouched remainder, refuting the claim as
stated for every buffer containing a zero byte. -/
theorem getstring_nonascii_before_zero_fails : getstring [128, 0] = none := by decide

/-- C7 amended: for every buffer whose bytes before the first zero byte are
all nonzero ASCII, decoding terminates exactly at the first zero byte,
consumes it without including it, and leaves the remainder untouched; for
every all-ASCII buffer containing no zero byte, it consumes the entire buffer
and yields the full text. -/
theorem getstring_terminates_at_zero (pre post data : List Nat)
    (hpre : ∀ b ∈ pre, 0 < b ∧ b < 128)
    (hdata : ∀ b ∈ data, 0 < b ∧ b < 128) :
    getstring (pre ++ 0 :: post) = some (decode_name pre, post) ∧
    getstring data = some (decode_name data, []) :=
  ⟨getstring_reads_to_zero pre post hpre, getstring_no_zero data hdata⟩

/-- Witness for the amended C7: "A" then a zero byte then trailing bytes
decodes to "A" leaving the trailing bytes, and "Hi" with no zero decodes
whole. -/
theorem getstring_terminates_at_zero_witness :
    getstring ([65] ++ 0 :: [66, 0]) = some (decode_name [65], [66, 0]) ∧
    getstring [72, 105] = some (decode_name [72, 105], []) :=
  getstring_terminates_at_zero [65] [66, 0] [72, 105] (by decide) (by decide)

/-- C8: every buffer of length strictly less than 20 bytes makes
`read_player_data` return the explicit IncompleteRecord result (the empty
dictionary), with no crash and no read past the buffer. -/
theorem read_player_data_incomplete (pd : List Nat) (h : pd.length < 20) :
    read_player_data pd = some [] := by
  simp [read_player_data, h]

/-- Witness for C8: a 3-byte datagram yields the IncompleteRecord result. -/
theorem read_player_data_incomplete_witness :
    read_player_data [1, 2, 3] = some [] :=
  read_player_data_incomplete [1, 2, 3] (by decide)

/-- C9: string decoding succeeds exactly when every byte before the first
zero byte (or before the end of the buffer when there is no zero byte) is
strictly below 0x80; a non-ASCII byte in that region makes the decode fail. -/
theorem getstring_isSome_iff_ascii (data : List Nat) :
    (getstring data).isSome = true ↔
      ∀ b ∈ data.takeWhile (fun x => x != 0), b < 128 := by
  induction data with
  | nil => simp [getstring]
  | cons b rest ih =>
    by_cases hb0 : b = 0
    · subst hb0
      simp [getstring, List.takeWhile_cons]
    · by_cases hb : b < 128
      · have hsome : (getstring (b :: rest)).isSome = (getstring rest).isSome := by
          simp only [getstring]
          rw [if_neg hb0, if_pos hb]
          cases getstring rest with
          | none => rfl
          | some v => cases v; rfl
        rw [hsome, List.takeWhile_cons]
        simp [hb0, hb, ih]
      · have hnone : getstring (b :: rest) = none := by
          simp only [getstring]
          rw [if_neg hb0, if_neg hb]
        rw [hnone, List.takeWhile_cons]
        simp only [hb0, bne_iff_ne, ne_eq, not_false_iff, if_pos]
        constructor
        · intro hfalse; exact absurd hfalse (by simp)
        · intro hall
          exact absurd (hall b (by simp [hb0])) hb

/-- C10: the 20-byte minimum-length precheck does not guarantee a full
decode — `badRecordBytes` has length exactly 20, ends with the -128
sentinel, and `read_player_data` on it is neither a PlayerRecord nor the
IncompleteRecord result but a truncation failure mid-field; moreover the
IncompleteRecord result (the empty dictionary) only arises for buffers
shorter than 20 bytes. -/
theorem read_player_data_length_check_insufficient :
    badRecordBytes.length = 20 ∧
    read_player_data badRecordBytes = none ∧
    (∀ (pd : List Nat) (r : List (String × Val)),
      read_player_data pd = some r → r = [] → pd.length < 20) := by
  refine ⟨by decide, by decide, ?_⟩
  intro pd r h hr
  by_contra hlen
  subst hr
  unfold read_player_data at h
  rw [if_neg hlen] at h
  iterate 25 (all_goals try split at h)
  all_goals simp at h

/-- Witness for C10's universally quantified part: a 19-byte all-zero buffer
returns the IncompleteRecord result and indeed has length below 20. -/
theorem read_player_data_length_check_insufficient_witness :
    (List.replicate 19 0).length < 20 :=
  read_player_data_length_check_insufficient.2.2 (List.replicate 19 0) [] (by decide) rfl
